/-
  Verification of the autodetecting video-source facade
  (gst/autodetect/gstautovideosrc.c).

  The C element is embedded shallowly: C strings become `List Nat` (byte
  lists), GstCaps become lists of structure names, the registry and the
  runtime behaviour of each candidate element (creation success, pad caps,
  READY-transition outcome, error messages collected from the private bus)
  are injected as fields of a `Feature` record, and the element's mutable
  state (`kid`, ghost-pad target, `filter_caps`) is threaded explicitly.
  Side effects that the code performs (caps checks, trial activations,
  message posting) are recorded in an explicit event trace.
-/
import Mathlib

set_option maxHeartbeats 1000000

/-- Bytes of a C string. -/
abbrev CBytes := List Nat

/-- A caps value, modelled as the list of its structure (media-type) names;
`gst_caps_can_intersect` only needs name equality at this granularity. -/
abbrev Caps := List CBytes

/-- An opaque error message popped from a candidate's private bus. -/
abbrev ErrMsg := Nat

/-- Bytes of a Lean string literal, for writing concrete C strings. -/
def bytes (s : String) : CBytes := s.data.map Char.toNat

/-- A registry feature together with the injected runtime behaviour of the
element it would create: whether `gst_element_factory_create` succeeds,
the caps of the created element's src pad, whether the trial transition to
READY returns `GST_STATE_CHANGE_SUCCESS`, and the error messages that
would be popped from the private bus after a failed trial. -/
structure Feature where
  name : CBytes
  klass : CBytes
  rank : Nat
  isElemFactory : Bool
  instOk : Bool
  caps : Caps
  readyOk : Bool
  errors : List ErrMsg
  deriving DecidableEq

/-- An element that can be bound as the facade's kid: the `tempsrc`
fakesrc placeholder made by `reset`, the `fake-video-src` fallback made by
`find_best`, or a detected candidate. -/
inductive Elem where
  | tempsrc
  | fakeVideoSrc
  | cand (f : Feature)
  deriving DecidableEq

/-- The mutable state of the `GstAutoVideoSrc` instance: the bound kid,
the ghost pad's current target (identified by the element owning the
target pad) and the stored filter caps. -/
structure AVSState where
  kid : Option Elem
  target : Option Elem
  filter_caps : Option Caps
  deriving DecidableEq

/-- Observable actions performed during detection. -/
inductive Ev where
  | capsCheck (n : CBytes) (ok : Bool)
  | trial (n : CBytes) (ok : Bool)
  | repostError (e : ErrMsg)
  | warn
  | elemError
  deriving DecidableEq

/-- The value `find_best` hands back: a candidate, the fallback fakesrc,
or NULL. -/
inductive Sel where
  | cand (f : Feature)
  | fakesrc
  | nosrc
  deriving DecidableEq

/-- The state transitions `change_state` dispatches on. -/
inductive Transition where
  | nullToReady
  | readyToNull
  | other
  deriving DecidableEq

/-- `GstStateChangeReturn`, restricted to what the facade produces. -/
inductive SCRet where
  | success
  | failure
  deriving DecidableEq

/-- `GST_RANK_MARGINAL`. -/
def GST_RANK_MARGINAL : Nat := 64

/-- `g_str_has_prefix` on byte lists (pattern first). -/
def listStartsWith : CBytes → CBytes → Bool
  | [], _ => true
  | _ :: _, [] => false
  | a :: as, b :: bs => (a == b) && listStartsWith as bs

/-- `g_str_has_suffix` on byte lists (pattern first). -/
def listEndsWith (p l : CBytes) : Bool := listStartsWith p.reverse l.reverse

/-- `strstr` viewed as a boolean: does `p` occur as a contiguous substring
of the second argument? -/
def listContainsSub (p : CBytes) : CBytes → Bool
  | [] => listStartsWith p []
  | b :: bs => listStartsWith p (b :: bs) || listContainsSub p bs

/-- `strcmp`, with the result normalised to its sign (only the sign is
ever used by the callers). -/
def strcmpI : CBytes → CBytes → Int
  | [], [] => 0
  | [], _ :: _ => -1
  | _ :: _, [] => 1
  | a :: as, b :: bs => if a < b then -1 else if b < a then 1 else strcmpI as bs

/-- `gst_caps_can_intersect`: the two caps share a structure name. -/
def gst_caps_can_intersect (a b : Caps) : Bool :=
  a.any (fun s => b.any (fun t => s == t))

/-- Split a byte string at every `;` (byte 59). -/
def splitSemi : CBytes → List CBytes
  | [] => [[]]
  | c :: cs =>
    if c == 59 then [] :: splitSemi cs
    else
      match splitSemi cs with
      | [] => [[c]]
      | g :: gs => (c :: g) :: gs

/-- Strip leading and trailing spaces (byte 32). -/
def trimSp (l : CBytes) : CBytes :=
  ((l.dropWhile (fun c => c == 32)).reverse.dropWhile (fun c => c == 32)).reverse

/-- Parse a caps string into its list of structure names; this is all of
`gst_caps_from_string` that the static caps literal of the source needs. -/
def gst_caps_from_string (s : String) : Caps :=
  (splitSemi (bytes s)).map trimSp

/-- The static `raw_caps` of the source file. -/
def defaultRawCaps : Caps := gst_caps_from_string "video/x-raw-yuv; video/x-raw-rgb"

/-- `gst_auto_video_src_factory_filter`. -/
def gst_auto_video_src_factory_filter (f : Feature) : Bool :=
  if !f.isElemFactory then false
  else if !(listContainsSub (bytes "Source") f.klass && listContainsSub (bytes "Video") f.klass) then false
  else if f.rank < GST_RANK_MARGINAL then false
  else true

/-- The C's `diff = rank2 - rank1` subtracts two `guint`s - the unsigned
difference wraps modulo 2^32 - and assigns the result to a `gint`, which
reinterprets values of 2^31 and above as negative (two's complement). -/
def guintSubToGint (a b : Nat) : Int :=
  if ((a : Int) - (b : Int)) % 4294967296 < 2147483648 then
    ((a : Int) - (b : Int)) % 4294967296
  else ((a : Int) - (b : Int)) % 4294967296 - 4294967296

/-- `gst_auto_video_src_compare_ranks` (the C local `diff` is inlined);
the rank difference uses the wrapping `guint`-to-`gint` subtraction the C
performs. -/
def gst_auto_video_src_compare_ranks (f1 f2 : Feature) : Int :=
  if guintSubToGint f2.rank f1.rank ≠ 0 then guintSubToGint f2.rank f1.rank
  else strcmpI f2.name f1.name

/-- The comparator with exact (unbounded) integer subtraction: the
idealised rank-descending order the spec describes. The C comparator
agrees with it exactly when both ranks are below 2^31; the C4 theorems
relate the two. -/
def exactCompareRanks (f1 f2 : Feature) : Int :=
  if ((f2.rank : Int) - (f1.rank : Int)) ≠ 0 then ((f2.rank : Int) - (f1.rank : Int))
  else strcmpI f2.name f1.name

/-- The order relation induced by the comparator, as used by `g_list_sort`:
`f1` may stand before `f2` iff the comparator is ≤ 0 on them. -/
def rankedBefore (f1 f2 : Feature) : Prop :=
  gst_auto_video_src_compare_ranks f1 f2 ≤ 0

instance : DecidableRel rankedBefore :=
  fun _a _b => inferInstanceAs (Decidable (_ ≤ _))

/-- The order relation of the idealised exact comparator. -/
def exactBefore (f1 f2 : Feature) : Prop :=
  exactCompareRanks f1 f2 ≤ 0

instance : DecidableRel exactBefore :=
  fun _a _b => inferInstanceAs (Decidable (_ ≤ _))

/-- `g_list_sort` with the comparator, modelled by a stable sort under
`rankedBefore` (GLib's list sort is a stable merge sort). -/
def sortByRank (l : List Feature) : List Feature :=
  List.insertionSort rankedBefore l

/-- `gst_auto_video_src_create_element_with_pretty_name`, restricted to the
name it generates: truncate a trailing "...Xsrc" by four bytes, then strip
a leading "gst", and splice the marker into "<name>-actual-src-<marker>". -/
def gst_auto_video_src_create_element_with_pretty_name (srcName fname : CBytes) : CBytes :=
  let m1 := if listEndsWith (bytes "src") fname then fname.take (fname.length - 4) else fname
  let m2 := if listStartsWith (bytes "gst") m1 then m1.drop 3 else m1
  srcName ++ bytes "-actual-src-" ++ m2

/-- The marker computation restated in the spec claim's terms: removing the
last four characters is phrased via reverse-drop-reverse. Compared against
the source-derived definition in the C9 theorem. -/
def specMarker (fname : CBytes) : CBytes :=
  let t := if listEndsWith (bytes "src") fname then (fname.reverse.drop 4).reverse else fname
  if listStartsWith (bytes "gst") t then t.drop 3 else t

/-- The probing loop of `gst_auto_video_src_find_best`: walk the ranked
candidates, skip silently on creation failure, discard on caps mismatch,
trial-activate otherwise; stop at the first success, collecting the failed
candidates' bus messages into the shared error list. -/
def probeLoop (fc? : Option Caps) : List Feature → List ErrMsg → Option Feature × List ErrMsg × List Ev
  | [], errs => (none, errs, [])
  | c :: rest, errs =>
    if c.instOk then
      match fc? with
      | some fc =>
        if gst_caps_can_intersect fc c.caps then
          if c.readyOk then (some c, errs, [Ev.capsCheck c.name true, Ev.trial c.name true])
          else
            let t := probeLoop fc? rest (errs ++ c.errors)
            (t.1, t.2.1, Ev.capsCheck c.name true :: Ev.trial c.name false :: t.2.2)
        else
          let t := probeLoop fc? rest errs
          (t.1, t.2.1, Ev.capsCheck c.name false :: t.2.2)
      | none =>
        if c.readyOk then (some c, errs, [Ev.trial c.name true])
        else
          let t := probeLoop fc? rest (errs ++ c.errors)
          (t.1, t.2.1, Ev.trial c.name false :: t.2.2)
    else probeLoop fc? rest errs

/-- The tail of `gst_auto_video_src_find_best` after the loop: on no
choice, repost the first collected error, or warn and fall back to a fresh
fakesrc when nothing was even eligible. -/
def selectPhase (fc? : Option Caps) (ranked : List Feature) : Sel × List ErrMsg × List Ev :=
  match probeLoop fc? ranked [] with
  | (some c, errs, evs) => (Sel.cand c, errs, evs)
  | (none, e :: es, evs) => (Sel.nosrc, e :: es, evs ++ [Ev.repostError e])
  | (none, [], evs) => (Sel.fakesrc, [], evs ++ [Ev.warn])

/-- `gst_auto_video_src_find_best`: registry query, ranking, probing,
selection. -/
def gst_auto_video_src_find_best (fc? : Option Caps) (feats : List Feature) : Sel × List ErrMsg × List Ev :=
  selectPhase fc? (sortByRank (feats.filter gst_auto_video_src_factory_filter))

/-- `gst_auto_video_src_clear_kid`. -/
def gst_auto_video_src_clear_kid (s : AVSState) : AVSState :=
  { s with kid := none }

/-- `gst_auto_video_src_reset`: remove the kid and bind the `tempsrc`
fakesrc placeholder, re-targeting the ghost pad at its src pad (the code
ignores the return of `gst_ghost_pad_set_target` here). -/
def gst_auto_video_src_reset (s : AVSState) : AVSState :=
  { gst_auto_video_src_clear_kid s with kid := some Elem.tempsrc, target := some Elem.tempsrc }

/-- `gst_auto_video_src_init`: fresh instance with an untargeted ghost pad,
then `reset`, then the default raw-video filter caps. -/
def gst_auto_video_src_init : AVSState :=
  { gst_auto_video_src_reset { kid := none, target := none, filter_caps := none } with
    filter_caps := some defaultRawCaps }

/-- What `find_best`'s return value binds as the kid. -/
def elemOfSel : Sel → Option Elem
  | Sel.cand c => some (Elem.cand c)
  | Sel.fakesrc => some Elem.fakeVideoSrc
  | Sel.nosrc => none

/-- `gst_auto_video_src_detect`. `rOk` injects the result of the external
`gst_ghost_pad_set_target` call; on its failure the ghost pad is left
without a target and the `target_failed` error is posted. -/
def gst_auto_video_src_detect (rOk : Bool) (feats : List Feature) (s : AVSState) :
    Bool × AVSState × List Ev :=
  let s1 := gst_auto_video_src_clear_kid s
  let r := gst_auto_video_src_find_best s1.filter_caps feats
  match elemOfSel r.1 with
  | none => (false, s1, r.2.2 ++ [Ev.elemError])
  | some el =>
    if rOk then (true, { s1 with kid := some el, target := some el }, r.2.2)
    else (false, { s1 with kid := some el, target := none }, r.2.2 ++ [Ev.elemError])

/-- `gst_auto_video_src_change_state`: run `detect` on NULL→READY (failing
the transition when it fails), `reset` on READY→NULL, pass everything else
through. -/
def gst_auto_video_src_change_state (rOk : Bool) (feats : List Feature)
    (t : Transition) (s : AVSState) : SCRet × AVSState × List Ev :=
  match t with
  | Transition.nullToReady =>
    let d := gst_auto_video_src_detect rOk feats s
    if d.1 then (SCRet.success, d.2.1, d.2.2) else (SCRet.failure, d.2.1, d.2.2)
  | Transition.readyToNull => (SCRet.success, gst_auto_video_src_reset s, [])
  | Transition.other => (SCRet.success, s, [])

/-- `gst_auto_video_src_set_property` for `filter-caps`: unconditionally
replace the stored caps with a copy of the supplied value. -/
def gst_auto_video_src_set_property (s : AVSState) (v : Caps) : AVSState :=
  { s with filter_caps := some v }

/-- `gst_auto_video_src_get_property` for `filter-caps`. -/
def gst_auto_video_src_get_property (s : AVSState) : Option Caps :=
  s.filter_caps

/-- Events that post an error on the facade's bus. -/
def isRepostEv : Ev → Bool
  | Ev.repostError _ => true
  | _ => false

/-- The warning event. -/
def isWarnEv : Ev → Bool
  | Ev.warn => true
  | _ => false

/-- The events a successful probing step contributes for candidate `c`. -/
def stepOkEvents (fc? : Option Caps) (c : Feature) : List Ev :=
  match fc? with
  | some _ => [Ev.capsCheck c.name true, Ev.trial c.name true]
  | none => [Ev.trial c.name true]

/-- `strcmp` is antisymmetric in sign: swapping the arguments negates the
result. -/
lemma strcmpI_swap (a b : CBytes) : strcmpI b a = -strcmpI a b := by
  induction a generalizing b with
  | nil => cases b <;> simp [strcmpI]
  | cons x xs ih =>
    cases b with
    | nil => simp [strcmpI]
    | cons y ys =>
      simp only [strcmpI]
      rcases Nat.lt_trichotomy x y with h | h | h
      · simp [h, Nat.not_lt_of_lt h]
      · subst h
        simp [Nat.lt_irrefl, ih]
      · simp [h, Nat.not_lt_of_lt h]

/-- The ≤-part of `strcmp` is transitive. -/
lemma strcmpI_le_trans {a b c : CBytes} (h1 : strcmpI a b ≤ 0) (h2 : strcmpI b c ≤ 0) :
    strcmpI a c ≤ 0 := by
  induction a generalizing b c with
  | nil => cases c <;> simp [strcmpI]
  | cons x xs ih =>
    cases b with
    | nil => simp [strcmpI] at h1
    | cons y ys =>
      cases c with
      | nil => simp [strcmpI] at h2
      | cons z zs =>
        simp only [strcmpI] at h1 h2 ⊢
        rcases Nat.lt_trichotomy x y with hxy | hxy | hxy
        · rcases Nat.lt_trichotomy y z with hyz | hyz | hyz
          · simp [Nat.lt_trans hxy hyz]
          · subst hyz
            simp [hxy]
          · simp [hyz, Nat.not_lt_of_lt hyz] at h2
        · subst hxy
          rcases Nat.lt_trichotomy x z with hxz | hxz | hxz
          · simp [hxz]
          · subst hxz
            simp [Nat.lt_irrefl] at h1 h2 ⊢
            exact ih h1 h2
          · simp [hxz, Nat.not_lt_of_lt hxz] at h2
        · simp [hxy, Nat.not_lt_of_lt hxy] at h1

/-- Swapping the exact comparator's arguments negates its result. -/
lemma exactCompare_swap (f1 f2 : Feature) :
    exactCompareRanks f2 f1 = -exactCompareRanks f1 f2 := by
  unfold exactCompareRanks
  split_ifs with h1 h2 h3 <;>
    first
      | omega
      | exact strcmpI_swap f2.name f1.name

/-- Characterisation of the non-strict exact order. -/
lemma exactBefore_iff (f1 f2 : Feature) :
    exactBefore f1 f2 ↔
      (f2.rank < f1.rank ∨ (f1.rank = f2.rank ∧ strcmpI f2.name f1.name ≤ 0)) := by
  unfold exactBefore exactCompareRanks
  split_ifs with h1
  · constructor
    · intro hle
      exact Or.inl (by omega)
    · rintro (hlt | ⟨heq, _⟩) <;> omega
  · have heq : f1.rank = f2.rank := by omega
    constructor
    · intro hle
      exact Or.inr ⟨heq, hle⟩
    · rintro (hlt | ⟨_, hle⟩)
      · omega
      · exact hle

instance : IsTotal Feature exactBefore := by
  constructor
  intro a b
  simp only [exactBefore]
  have h := exactCompare_swap a b
  omega

instance : IsTrans Feature exactBefore := by
  constructor
  intro a b c hab hbc
  rw [exactBefore_iff] at hab hbc ⊢
  rcases hab with hab | ⟨hab, hab'⟩
  · rcases hbc with hbc | ⟨hbc, _⟩
    · exact Or.inl (Nat.lt_trans hbc hab)
    · exact Or.inl (hbc ▸ hab)
  · rcases hbc with hbc | ⟨hbc, hbc'⟩
    · exact Or.inl (hab ▸ hbc)
    · exact Or.inr ⟨hab.trans hbc, strcmpI_le_trans hbc' hab'⟩

/-- Below 2^31, the wrapping `guint`-to-`gint` subtraction is exact. -/
lemma guintSubToGint_eq_sub (a b : Nat)
    (ha : a < 2147483648) (hb : b < 2147483648) :
    guintSubToGint a b = (a : Int) - (b : Int) := by
  unfold guintSubToGint
  split_ifs with h <;> omega

/-- When both ranks fit in a `gint`, the C comparator coincides with the
idealised exact comparator. -/
lemma compare_ranks_eq_exact (f1 f2 : Feature)
    (h1 : f1.rank < 2147483648) (h2 : f2.rank < 2147483648) :
    gst_auto_video_src_compare_ranks f1 f2 = exactCompareRanks f1 f2 := by
  unfold gst_auto_video_src_compare_ranks exactCompareRanks
  rw [guintSubToGint_eq_sub f2.rank f1.rank h2 h1]

/-- When both ranks fit in a `gint`, the two order relations agree. -/
lemma rankedBefore_iff_exact (f1 f2 : Feature)
    (h1 : f1.rank < 2147483648) (h2 : f2.rank < 2147483648) :
    rankedBefore f1 f2 ↔ exactBefore f1 f2 := by
  unfold rankedBefore exactBefore
  rw [compare_ranks_eq_exact f1 f2 h1 h2]

/-- A candidate whose element creation fails is skipped silently. -/
lemma probeLoop_inst_fail (fc? : Option Caps) (c : Feature) (rest : List Feature)
    (errs : List ErrMsg) (h : c.instOk = false) :
    probeLoop fc? (c :: rest) errs = probeLoop fc? rest errs := by
  simp [probeLoop, h]

/-- A candidate failing the caps-intersection test is discarded: the loop
records the caps check and moves on with the error list untouched. -/
lemma probeLoop_caps_mismatch (fc : Caps) (c : Feature) (rest : List Feature)
    (errs : List ErrMsg) (hi : c.instOk = true)
    (hm : gst_caps_can_intersect fc c.caps = false) :
    probeLoop (some fc) (c :: rest) errs =
      ((probeLoop (some fc) rest errs).1, (probeLoop (some fc) rest errs).2.1,
        Ev.capsCheck c.name false :: (probeLoop (some fc) rest errs).2.2) := by
  simp [probeLoop, hi, hm]

/-- A candidate that passes the caps test and reaches READY stops the loop. -/
lemma probeLoop_success_some (fc : Caps) (c : Feature) (rest : List Feature)
    (errs : List ErrMsg) (hi : c.instOk = true)
    (hm : gst_caps_can_intersect fc c.caps = true) (hr : c.readyOk = true) :
    probeLoop (some fc) (c :: rest) errs =
      (some c, errs, [Ev.capsCheck c.name true, Ev.trial c.name true]) := by
  simp [probeLoop, hi, hm, hr]

/-- With no filter configured, a candidate that reaches READY stops the loop. -/
lemma probeLoop_success_none (c : Feature) (rest : List Feature)
    (errs : List ErrMsg) (hi : c.instOk = true) (hr : c.readyOk = true) :
    probeLoop none (c :: rest) errs = (some c, errs, [Ev.trial c.name true]) := by
  simp [probeLoop, hi, hr]

/-- Every event the probing loop records is a caps check or a trial. -/
lemma probeLoop_ev_shape (fc? : Option Caps) (l : List Feature) (errs : List ErrMsg) :
    ∀ ev ∈ (probeLoop fc? l errs).2.2,
      (∃ n b, ev = Ev.capsCheck n b) ∨ (∃ n b, ev = Ev.trial n b) := by
  induction l generalizing errs with
  | nil => simp [probeLoop]
  | cons c rest ih =>
    intro ev hev
    by_cases hi : c.instOk
    · cases fc? with
      | some fc =>
        by_cases hm : gst_caps_can_intersect fc c.caps
        · by_cases hr : c.readyOk
          · simp [probeLoop, hi, hm, hr] at hev
            rcases hev with h | h
            · exact Or.inl ⟨c.name, true, h⟩
            · exact Or.inr ⟨c.name, true, h⟩
          · simp only [probeLoop, hi, if_true, hm, eq_self_iff_true, hr] at hev
            simp only [Bool.not_eq_true] at hr
            simp [hi, hm, hr, List.mem_cons] at hev
            rcases hev with h | h | h
            · exact Or.inl ⟨c.name, true, h⟩
            · exact Or.inr ⟨c.name, false, h⟩
            · exact ih _ ev h
          
        · simp only [Bool.not_eq_true] at hm
          simp [probeLoop, hi, hm, List.mem_cons] at hev
          rcases hev with h | h
          · exact Or.inl ⟨c.name, false, h⟩
          · exact ih _ ev h
      | none =>
        by_cases hr : c.readyOk
        · simp [probeLoop, hi, hr] at hev
          exact Or.inr ⟨c.name, true, hev⟩
        · simp only [Bool.not_eq_true] at hr
          simp [probeLoop, hi, hr, List.mem_cons] at hev
          rcases hev with h | h
          · exact Or.inr ⟨c.name, false, h⟩
          · exact ih _ ev h
    · simp only [Bool.not_eq_true] at hi
      rw [probeLoop_inst_fail fc? c rest errs hi] at hev
      exact ih _ ev hev

/-- A trial event in the loop's trace names a candidate of the list. -/
lemma probeLoop_trial_mem (fc? : Option Caps) (l : List Feature) (errs : List ErrMsg)
    (n : CBytes) (b : Bool) (h : Ev.trial n b ∈ (probeLoop fc? l errs).2.2) :
    ∃ c ∈ l, c.name = n := by
  induction l generalizing errs with
  | nil => simp [probeLoop] at h
  | cons c rest ih =>
    by_cases hi : c.instOk
    · cases fc? with
      | some fc =>
        by_cases hm : gst_caps_can_intersect fc c.caps
        · by_cases hr : c.readyOk
          · simp [probeLoop, hi, hm, hr] at h
            exact ⟨c, List.mem_cons_self c rest, h.1.symm⟩
          · simp only [Bool.not_eq_true] at hr
            simp [probeLoop, hi, hm, hr, List.mem_cons] at h
            rcases h with h | h
            · exact ⟨c, List.mem_cons_self c rest, h.1.symm⟩
            · obtain ⟨c', hc', hn⟩ := ih _ h
              exact ⟨c', List.mem_cons_of_mem c hc', hn⟩
        · simp only [Bool.not_eq_true] at hm
          simp [probeLoop, hi, hm, List.mem_cons] at h
          obtain ⟨c', hc', hn⟩ := ih _ h
          exact ⟨c', List.mem_cons_of_mem c hc', hn⟩
      | none =>
        by_cases hr : c.readyOk
        · simp [probeLoop, hi, hr] at h
          exact ⟨c, List.mem_cons_self c rest, h.1.symm⟩
        · simp only [Bool.not_eq_true] at hr
          simp [probeLoop, hi, hr, List.mem_cons] at h
          rcases h with h | h
          · exact ⟨c, List.mem_cons_self c rest, h.1.symm⟩
          · obtain ⟨c', hc', hn⟩ := ih _ h
            exact ⟨c', List.mem_cons_of_mem c hc', hn⟩
    · simp only [Bool.not_eq_true] at hi
      rw [probeLoop_inst_fail fc? c rest errs hi] at h
      obtain ⟨c', hc', hn⟩ := ih _ h
      exact ⟨c', List.mem_cons_of_mem c hc', hn⟩

/-- If the loop rejects all of `l1`, probing `l1 ++ l2` continues into `l2`
carrying the errors collected over `l1`, and the traces concatenate. -/
lemma probeLoop_append (fc? : Option Caps) (l1 l2 : List Feature)
    (errs e1 : List ErrMsg) (v1 : List Ev)
    (h : probeLoop fc? l1 errs = (none, e1, v1)) :
    probeLoop fc? (l1 ++ l2) errs =
      ((probeLoop fc? l2 e1).1, (probeLoop fc? l2 e1).2.1,
        v1 ++ (probeLoop fc? l2 e1).2.2) := by
  induction l1 generalizing errs v1 with
  | nil =>
    simp only [probeLoop, Prod.mk.injEq] at h
    obtain ⟨-, he, hv⟩ := h
    subst he
    subst hv
    simp
  | cons c rest ih =>
    by_cases hi : c.instOk
    · cases fc? with
      | some fc =>
        by_cases hm : gst_caps_can_intersect fc c.caps
        · by_cases hr : c.readyOk
          · rw [probeLoop_success_some fc c rest errs hi hm hr] at h
            simp at h
          · simp only [Bool.not_eq_true] at hr
            simp only [probeLoop, hi, if_true, hm, hr, Bool.false_eq_true, if_false,
              Prod.mk.injEq] at h
            obtain ⟨h1, h2, h3⟩ := h
            have hrec : probeLoop (some fc) rest (errs ++ c.errors) =
                (none, e1, (probeLoop (some fc) rest (errs ++ c.errors)).2.2) := by
              rw [Prod.ext_iff, Prod.ext_iff]
              exact ⟨h1, h2, rfl⟩
            have := ih (errs ++ c.errors) _ hrec
            simp only [List.cons_append, probeLoop, hi, if_true, hm, hr,
              Bool.false_eq_true, if_false, List.append_eq]
            rw [this]
            simp [← h3]
        · simp only [Bool.not_eq_true] at hm
          rw [probeLoop_caps_mismatch fc c rest errs hi hm] at h
          simp only [Prod.mk.injEq] at h
          obtain ⟨h1, h2, h3⟩ := h
          have hrec : probeLoop (some fc) rest errs =
              (none, e1, (probeLoop (some fc) rest errs).2.2) := by
            rw [Prod.ext_iff, Prod.ext_iff]
            exact ⟨h1, h2, rfl⟩
          have := ih errs _ hrec
          rw [List.cons_append, probeLoop_caps_mismatch fc c (rest ++ l2) errs hi hm, this]
          simp [← h3]
      | none =>
        by_cases hr : c.readyOk
        · rw [probeLoop_success_none c rest errs hi hr] at h
          simp at h
        · simp only [Bool.not_eq_true] at hr
          simp only [probeLoop, hi, if_true, hr, Bool.false_eq_true, if_false,
            Prod.mk.injEq] at h
          obtain ⟨h1, h2, h3⟩ := h
          have hrec : probeLoop none rest (errs ++ c.errors) =
              (none, e1, (probeLoop none rest (errs ++ c.errors)).2.2) := by
            rw [Prod.ext_iff, Prod.ext_iff]
            exact ⟨h1, h2, rfl⟩
          have := ih (errs ++ c.errors) _ hrec
          simp only [List.cons_append, probeLoop, hi, if_true, hr,
            Bool.false_eq_true, if_false, List.append_eq]
          rw [this]
          simp [← h3]
    · simp only [Bool.not_eq_true] at hi
      rw [probeLoop_inst_fail fc? c rest errs hi] at h
      rw [List.cons_append, probeLoop_inst_fail fc? c (rest ++ l2) errs hi]
      exact ih errs v1 h

/-- A candidate that passes the caps test but fails its trial activation:
both caps events are recorded and the loop continues with its errors. -/
lemma probeLoop_trial_fail_some (fc : Caps) (c : Feature) (rest : List Feature)
    (errs : List ErrMsg) (hi : c.instOk = true)
    (hm : gst_caps_can_intersect fc c.caps = true) (hr : c.readyOk = false) :
    probeLoop (some fc) (c :: rest) errs =
      ((probeLoop (some fc) rest (errs ++ c.errors)).1,
        (probeLoop (some fc) rest (errs ++ c.errors)).2.1,
        Ev.capsCheck c.name true :: Ev.trial c.name false ::
          (probeLoop (some fc) rest (errs ++ c.errors)).2.2) := by
  simp [probeLoop, hi, hm, hr]

/-- Events recorded by the probing loop are never posts on the facade's
own bus. -/
lemma ev_shape_not_post (ev : Ev)
    (h : (∃ n b, ev = Ev.capsCheck n b) ∨ (∃ n b, ev = Ev.trial n b)) :
    isRepostEv ev = false ∧ isWarnEv ev = false := by
  rcases h with ⟨n, b, rfl⟩ | ⟨n, b, rfl⟩ <;> simp [isRepostEv, isWarnEv]

/-- Strict characterisation of the exact comparator: `f1` strictly
precedes `f2` iff `f1` has the larger rank, or ranks tie and `f1`'s name
is the larger in `strcmp` order. -/
lemma exactCompare_neg_iff (f1 f2 : Feature) :
    exactCompareRanks f1 f2 < 0 ↔
      (f2.rank < f1.rank ∨ (f1.rank = f2.rank ∧ strcmpI f2.name f1.name < 0)) := by
  unfold exactCompareRanks
  split_ifs with h1
  · constructor
    · intro hlt
      exact Or.inl (by omega)
    · rintro (hlt | ⟨heq, _⟩) <;> omega
  · have heq : f1.rank = f2.rank := by omega
    constructor
    · intro hlt
      exact Or.inr ⟨heq, hlt⟩
    · rintro (hlt | ⟨_, hlt⟩)
      · omega
      · exact hlt

/-- `orderedInsert` only consults the relation between the inserted element
and elements of the list, so relations agreeing there insert identically. -/
lemma orderedInsert_rel_congr (r r' : Feature → Feature → Prop)
    [DecidableRel r] [DecidableRel r'] (a : Feature) (l : List Feature)
    (h : ∀ b ∈ l, (r a b ↔ r' a b)) :
    List.orderedInsert r a l = List.orderedInsert r' a l := by
  induction l with
  | nil => rfl
  | cons b t ih =>
    simp only [List.orderedInsert]
    by_cases hb : r a b
    · rw [if_pos hb, if_pos ((h b (List.mem_cons_self b t)).mp hb)]
    · rw [if_neg hb, if_neg (fun hb' => hb ((h b (List.mem_cons_self b t)).mpr hb')),
        ih (fun c hc => h c (List.mem_cons_of_mem b hc))]

/-- `insertionSort` only consults the relation on pairs from the list, so
relations agreeing on those pairs sort identically. -/
lemma insertionSort_rel_congr (r r' : Feature → Feature → Prop)
    [DecidableRel r] [DecidableRel r'] (l : List Feature)
    (h : ∀ a ∈ l, ∀ b ∈ l, (r a b ↔ r' a b)) :
    List.insertionSort r l = List.insertionSort r' l := by
  induction l with
  | nil => rfl
  | cons a t ih =>
    simp only [List.insertionSort]
    rw [ih (fun x hx y hy => h x (List.mem_cons_of_mem a hx) y (List.mem_cons_of_mem a hy))]
    apply orderedInsert_rel_congr
    intro b hb
    have hbt : b ∈ t := (List.mem_insertionSort r').mp hb
    exact h a (List.mem_cons_self a t) b (List.mem_cons_of_mem a hbt)

/-- On lists whose ranks all fit in a `gint`, the C sort and the idealised
exact sort coincide. -/
lemma sortByRank_eq_exact (l : List Feature)
    (h : ∀ f ∈ l, f.rank < 2147483648) :
    sortByRank l = List.insertionSort exactBefore l := by
  unfold sortByRank
  exact insertionSort_rel_congr rankedBefore exactBefore l
    (fun a ha b hb => rankedBefore_iff_exact a b (h a ha) (h b hb))

/-- Idempotence of the C sort on lists whose ranks all fit in a `gint`. -/
lemma sortByRank_idem_of_bounded (l : List Feature)
    (h : ∀ f ∈ l, f.rank < 2147483648) :
    sortByRank (sortByRank l) = sortByRank l := by
  have hmem : ∀ f ∈ sortByRank l, f.rank < 2147483648 := by
    intro f hf
    exact h f ((List.mem_insertionSort rankedBefore).mp hf)
  rw [sortByRank_eq_exact (sortByRank l) hmem, sortByRank_eq_exact l h]
  exact List.Sorted.insertionSort_eq (List.sorted_insertionSort exactBefore l)

/-- An eligible video-source candidate whose trial activation fails,
leaving one error message (numbered 7) on its private bus. -/
def wFail : Feature :=
  { name := bytes "badsrc", klass := bytes "Video/Source", rank := 128,
    isElemFactory := true, instOk := true, caps := [bytes "video/x-raw-yuv"],
    readyOk := false, errors := [7] }

/-- An eligible video-source candidate whose trial activation succeeds. -/
def wOk : Feature :=
  { name := bytes "goodsrc", klass := bytes "Source/Video", rank := 64,
    isElemFactory := true, instOk := true, caps := [bytes "video/x-raw-yuv"],
    readyOk := true, errors := [] }

/-- An eligible candidate whose declared caps do not intersect the default
raw-video filter. -/
def wMismatch : Feature :=
  { name := bytes "bayersrc", klass := bytes "Source/Video", rank := 96,
    isElemFactory := true, instOk := true, caps := [bytes "video/x-bayer"],
    readyOk := true, errors := [] }

/-- A candidate named "zsrc" with rank 64. -/
def zsrcF : Feature :=
  { name := bytes "zsrc", klass := bytes "Source/Video", rank := 64,
    isElemFactory := true, instOk := true, caps := [bytes "video/x-raw-yuv"],
    readyOk := true, errors := [] }

/-- A candidate named "asrc" with the same rank 64. -/
def asrcF : Feature :=
  { zsrcF with name := bytes "asrc" }

/-- A candidate of rank 2^31: against a rank-0 candidate the `guint`
difference is 2^31, whose `gint` reinterpretation is negative. -/
def cHigh : Feature :=
  { name := bytes "hisrc", klass := bytes "Source/Video", rank := 2147483648,
    isElemFactory := true, instOk := true, caps := [bytes "video/x-raw-yuv"],
    readyOk := true, errors := [] }

/-- A candidate of rank 0, paired with `cHigh`. -/
def cLow : Feature :=
  { cHigh with name := bytes "losrc", rank := 0 }

/-- Counterexample for C4 as claimed: for the pair (`cLow`, `cHigh`) with
ranks 0 and 2^31, the wrapped `guint - guint` difference 2^31 truncates to
the negative `gint` -2^31, so the comparator lets the LOWER-ranked `cLow`
strictly precede `cHigh` - the claimed rank-descending characterisation
is false for this pair, and the sorted list comes out rank-ascending. -/
theorem auto_video_src_ranking_wrap_counterexample :
    cLow.rank < cHigh.rank ∧
    gst_auto_video_src_compare_ranks cLow cHigh < 0 ∧
    ¬(cHigh.rank < cLow.rank ∨
      (cLow.rank = cHigh.rank ∧ strcmpI cHigh.name cLow.name < 0)) ∧
    sortByRank [cLow, cHigh] = [cLow, cHigh] := by
  decide

/-- Claim C4 (amended): for candidates whose ranks fit in a `gint` (below
2^31, so the C's wrapping `guint`-to-`gint` subtraction is exact), the
comparator orders by rank descending with ties broken by name descending
(so "zsrc" precedes "asrc" at equal rank), and sorting such lists is
idempotent: re-sorting leaves the result unchanged, so identical input
always yields identical output. At rank differences of 2^31 and above the
wrapped sign flips and the order is violated. -/
theorem auto_video_src_ranking_spec :
    (∀ f1 f2 : Feature, f1.rank < 2147483648 → f2.rank < 2147483648 →
      (gst_auto_video_src_compare_ranks f1 f2 < 0 ↔
        (f2.rank < f1.rank ∨ (f1.rank = f2.rank ∧ strcmpI f2.name f1.name < 0)))) ∧
    gst_auto_video_src_compare_ranks zsrcF asrcF < 0 ∧
    sortByRank [asrcF, zsrcF] = [zsrcF, asrcF] ∧
    (∀ l : List Feature, (∀ f ∈ l, f.rank < 2147483648) →
      sortByRank (sortByRank l) = sortByRank l) := by
  refine ⟨?_, by decide, by decide, sortByRank_idem_of_bounded⟩
  intro f1 f2 h1 h2
  rw [compare_ranks_eq_exact f1 f2 h1 h2]
  exact exactCompare_neg_iff f1 f2

/-- Witness for C4 (amended): the characterisation at the concrete pair
(`wFail`, `wOk`) and idempotence on a concrete three-candidate list, all
rank bounds discharged. -/
theorem auto_video_src_ranking_spec_witness :
    (gst_auto_video_src_compare_ranks wFail wOk < 0 ↔
      (wOk.rank < wFail.rank ∨ (wFail.rank = wOk.rank ∧ strcmpI wOk.name wFail.name < 0))) ∧
    sortByRank (sortByRank [asrcF, zsrcF, wFail]) = sortByRank [asrcF, zsrcF, wFail] :=
  ⟨auto_video_src_ranking_spec.1 wFail wOk (by decide) (by decide),
   auto_video_src_ranking_spec.2.2.2 [asrcF, zsrcF, wFail] (by decide)⟩

/-- Claim C8: the registry predicate accepts a feature iff it is an
element factory whose class string contains "Source" and "Video" and
whose rank reaches `GST_RANK_MARGINAL`; the query is the side-effect-free
`filter` of the feature list. -/
theorem auto_video_src_factory_filter_spec :
    (∀ f : Feature, gst_auto_video_src_factory_filter f = true ↔
      (f.isElemFactory = true ∧
       listContainsSub (bytes "Source") f.klass = true ∧
       listContainsSub (bytes "Video") f.klass = true ∧
       GST_RANK_MARGINAL ≤ f.rank)) ∧
    (∀ (feats : List Feature) (f : Feature),
      f ∈ feats.filter gst_auto_video_src_factory_filter ↔
        (f ∈ feats ∧ gst_auto_video_src_factory_filter f = true)) := by
  constructor
  · intro f
    constructor
    · intro ht
      unfold gst_auto_video_src_factory_filter at ht
      split_ifs at ht with h1 h2 h3
      simp at h1 h2
      exact ⟨h1, h2.1, h2.2, Nat.le_of_not_lt h3⟩
    · rintro ⟨ha, hb, hc, hd⟩
      unfold gst_auto_video_src_factory_filter
      rw [if_neg (by simp [ha]), if_neg (by simp [hb, hc]), if_neg (by omega)]
  · intro feats f
    simp [List.mem_filter]

/-- Truncating the last four elements equals take of length minus four. -/
lemma take_sub_four (l : CBytes) :
    l.take (l.length - 4) = (l.reverse.drop 4).reverse := by
  simpa [List.rdrop] using List.rdrop_eq_reverse_drop_reverse l 4

/-- Claim C9: for factory names of length at least four, the generated
trial-instance name is "<facade name>-actual-src-<marker>", the marker
being the factory name with its last four characters removed when it ends
in "src", then its first three removed when the result starts with "gst"
(so "v4l2src" yields "v4l"); `specMarker` restates that computation in
the claim's terms. -/
theorem auto_video_src_pretty_name_spec (srcName fname : CBytes)
    (_h : 4 ≤ fname.length) :
    gst_auto_video_src_create_element_with_pretty_name srcName fname =
      srcName ++ bytes "-actual-src-" ++ specMarker fname := by
  unfold gst_auto_video_src_create_element_with_pretty_name specMarker
  rw [take_sub_four]

/-- Witness for C9: "v4l2src" under facade name "autovideo" produces the
marker "v4l". -/
theorem auto_video_src_pretty_name_witness :
    gst_auto_video_src_create_element_with_pretty_name (bytes "autovideo") (bytes "v4l2src") =
      bytes "autovideo" ++ bytes "-actual-src-" ++ specMarker (bytes "v4l2src") ∧
    specMarker (bytes "v4l2src") = bytes "v4l" :=
  ⟨auto_video_src_pretty_name_spec (bytes "autovideo") (bytes "v4l2src") (by decide), by decide⟩

/-- Claim C2 (amended): a write to the filter-caps property is accepted in
every state, unconditionally replacing the stored filter caps with a copy
of the supplied value and touching nothing else; the bound component does
not gate it. -/
theorem auto_video_src_set_property_always_accepts (s : AVSState) (v : Caps) :
    (gst_auto_video_src_set_property s v).filter_caps = some v ∧
    (gst_auto_video_src_set_property s v).kid = s.kid ∧
    (gst_auto_video_src_set_property s v).target = s.target :=
  ⟨rfl, rfl, rfl⟩

/-- The facade state after a successful activation that bound `wOk`. -/
def activeState : AVSState :=
  (gst_auto_video_src_change_state true [wOk] Transition.nullToReady
    gst_auto_video_src_init).2.1

/-- Counterexample for C2 as claimed: with the non-placeholder candidate
`wOk` bound after activation, a filter-caps write is not rejected - it
changes the stored caps. -/
theorem auto_video_src_set_property_counterexample :
    activeState.kid = some (Elem.cand wOk) ∧
    gst_auto_video_src_set_property activeState [bytes "video/x-test"] ≠ activeState ∧
    (gst_auto_video_src_set_property activeState [bytes "video/x-test"]).filter_caps =
      some [bytes "video/x-test"] := by
  decide

/-- Claim C10: construction initialises filter-caps to the parsed
"video/x-raw-yuv; video/x-raw-rgb" caps (a non-empty value), so probing
with the constructed state's filter subjects every created candidate to
the caps-intersection test first: the head of the step's trace is always
the caps check against the default raw caps. -/
theorem auto_video_src_default_filter_caps (c : Feature) (rest : List Feature)
    (errs : List ErrMsg) (h : c.instOk = true) :
    gst_auto_video_src_init.filter_caps = some defaultRawCaps ∧
    defaultRawCaps = [bytes "video/x-raw-yuv", bytes "video/x-raw-rgb"] ∧
    ((probeLoop gst_auto_video_src_init.filter_caps (c :: rest) errs).2.2).head? =
      some (Ev.capsCheck c.name (gst_caps_can_intersect defaultRawCaps c.caps)) := by
  refine ⟨rfl, by decide, ?_⟩
  show ((probeLoop (some defaultRawCaps) (c :: rest) errs).2.2).head? = _
  by_cases hm : gst_caps_can_intersect defaultRawCaps c.caps
  · by_cases hr : c.readyOk
    · rw [probeLoop_success_some defaultRawCaps c rest errs h hm hr]
      simp [hm]
    · rw [probeLoop_trial_fail_some defaultRawCaps c rest errs h hm
        (Bool.not_eq_true _ |>.mp hr)]
      simp [hm]
  · rw [probeLoop_caps_mismatch defaultRawCaps c rest errs h
      (Bool.not_eq_true _ |>.mp hm)]
    simp [Bool.not_eq_true _ |>.mp hm]

/-- Witness for C10 at the succeeding candidate `wOk`. -/
theorem auto_video_src_default_filter_caps_witness :
    gst_auto_video_src_init.filter_caps = some defaultRawCaps ∧
    defaultRawCaps = [bytes "video/x-raw-yuv", bytes "video/x-raw-rgb"] ∧
    ((probeLoop gst_auto_video_src_init.filter_caps [wOk] []).2.2).head? =
      some (Ev.capsCheck wOk.name (gst_caps_can_intersect defaultRawCaps wOk.caps)) :=
  auto_video_src_default_filter_caps wOk [] [] rfl

/-- Claim C5: when the registry query yields no eligible candidate at all,
activation succeeds with the fallback: `find_best` warns once, records no
error, returns a fresh fakesrc, and `detect` binds it behind the endpoint;
the full event trace is the single warning. -/
theorem auto_video_src_empty_registry_fallback (feats : List Feature) (s : AVSState)
    (h : feats.filter gst_auto_video_src_factory_filter = []) :
    gst_auto_video_src_find_best s.filter_caps feats = (Sel.fakesrc, [], [Ev.warn]) ∧
    gst_auto_video_src_detect true feats s =
      (true, { s with kid := some Elem.fakeVideoSrc, target := some Elem.fakeVideoSrc },
        [Ev.warn]) ∧
    ((gst_auto_video_src_detect true feats s).2.2).countP (fun e => isWarnEv e) = 1 ∧
    ((gst_auto_video_src_detect true feats s).2.2).countP
      (fun e => isRepostEv e || (e == Ev.elemError)) = 0 ∧
    (gst_auto_video_src_change_state true feats Transition.nullToReady s).1 = SCRet.success := by
  have hfb : ∀ fc? : Option Caps, gst_auto_video_src_find_best fc? feats =
      (Sel.fakesrc, [], [Ev.warn]) := by
    intro fc?
    unfold gst_auto_video_src_find_best
    rw [h]
    rfl
  have hdet : gst_auto_video_src_detect true feats s =
      (true, { s with kid := some Elem.fakeVideoSrc, target := some Elem.fakeVideoSrc },
        [Ev.warn]) := by
    unfold gst_auto_video_src_detect gst_auto_video_src_clear_kid
    simp only [hfb]
    rfl
  refine ⟨hfb s.filter_caps, hdet, ?_, ?_, ?_⟩
  · rw [hdet]
    rfl
  · rw [hdet]
    rfl
  · unfold gst_auto_video_src_change_state
    rw [hdet]
    rfl

/-- Witness for C5 on the empty registry and the constructed state. -/
theorem auto_video_src_empty_registry_fallback_witness :
    gst_auto_video_src_find_best gst_auto_video_src_init.filter_caps [] =
      (Sel.fakesrc, [], [Ev.warn]) ∧
    gst_auto_video_src_detect true [] gst_auto_video_src_init =
      (true,
        { gst_auto_video_src_init with kid := some Elem.fakeVideoSrc, target := some Elem.fakeVideoSrc },
        [Ev.warn]) ∧
    ((gst_auto_video_src_detect true [] gst_auto_video_src_init).2.2).countP
      (fun e => isWarnEv e) = 1 ∧
    ((gst_auto_video_src_detect true [] gst_auto_video_src_init).2.2).countP
      (fun e => isRepostEv e || (e == Ev.elemError)) = 0 ∧
    (gst_auto_video_src_change_state true [] Transition.nullToReady
      gst_auto_video_src_init).1 = SCRet.success :=
  auto_video_src_empty_registry_fallback [] gst_auto_video_src_init rfl

/-- Claim C6: a created candidate whose declared caps do not intersect the
configured filter is discarded before any trial state change: the step
records only the failed caps check, passes the error list through
untouched, continues with the rest of the list, and (when no later
candidate shares its name) no trial event for it ever appears. -/
theorem auto_video_src_caps_mismatch_skipped (fc : Caps) (c : Feature)
    (rest : List Feature) (errs : List ErrMsg)
    (hi : c.instOk = true) (hm : gst_caps_can_intersect fc c.caps = false)
    (hfresh : ∀ c' ∈ rest, c'.name ≠ c.name) :
    probeLoop (some fc) (c :: rest) errs =
      ((probeLoop (some fc) rest errs).1, (probeLoop (some fc) rest errs).2.1,
        Ev.capsCheck c.name false :: (probeLoop (some fc) rest errs).2.2) ∧
    (∀ b : Bool, Ev.trial c.name b ∉ (probeLoop (some fc) (c :: rest) errs).2.2) := by
  have hstep := probeLoop_caps_mismatch fc c rest errs hi hm
  refine ⟨hstep, ?_⟩
  intro b hmem
  rw [hstep] at hmem
  simp only [List.mem_cons] at hmem
  rcases hmem with habs | hmem
  · exact Ev.noConfusion habs
  · obtain ⟨c', hc', hn⟩ := probeLoop_trial_mem (some fc) rest errs c.name b hmem
    exact hfresh c' hc' hn

/-- Witness for C6: the Bayer-only candidate against the default raw caps. -/
theorem auto_video_src_caps_mismatch_skipped_witness :
    probeLoop (some defaultRawCaps) [wMismatch] [] =
      ((probeLoop (some defaultRawCaps) ([] : List Feature) []).1,
        (probeLoop (some defaultRawCaps) ([] : List Feature) []).2.1,
        Ev.capsCheck wMismatch.name false ::
          (probeLoop (some defaultRawCaps) ([] : List Feature) []).2.2) ∧
    (∀ b : Bool, Ev.trial wMismatch.name b ∉
      (probeLoop (some defaultRawCaps) [wMismatch] []).2.2) :=
  auto_video_src_caps_mismatch_skipped defaultRawCaps wMismatch [] [] rfl (by decide)
    (by intro c' hc'; simp at hc')

/-- Claim C3: when probing rejects every ranked candidate and the
collected error list is non-empty, `find_best` returns NULL after
reposting exactly the head of the error list - the first error of the
earliest-ranked failing candidate - and the NULL→READY transition fails. -/
theorem auto_video_src_first_error_surfaced (rOk : Bool) (feats : List Feature)
    (s : AVSState) (e : ErrMsg) (es : List ErrMsg) (evs : List Ev)
    (hp : probeLoop s.filter_caps
        (sortByRank (feats.filter gst_auto_video_src_factory_filter)) [] =
          (none, e :: es, evs)) :
    gst_auto_video_src_find_best s.filter_caps feats =
      (Sel.nosrc, e :: es, evs ++ [Ev.repostError e]) ∧
    ((gst_auto_video_src_detect rOk feats s).2.2).filter isRepostEv = [Ev.repostError e] ∧
    (gst_auto_video_src_detect rOk feats s).1 = false ∧
    (gst_auto_video_src_change_state rOk feats Transition.nullToReady s).1 = SCRet.failure := by
  have hfb : gst_auto_video_src_find_best s.filter_caps feats =
      (Sel.nosrc, e :: es, evs ++ [Ev.repostError e]) := by
    unfold gst_auto_video_src_find_best selectPhase
    rw [hp]
  have hshape := probeLoop_ev_shape s.filter_caps
    (sortByRank (feats.filter gst_auto_video_src_factory_filter)) []
  rw [hp] at hshape
  have hnil : evs.filter isRepostEv = [] := by
    rw [List.filter_eq_nil_iff]
    intro ev hev
    have hflag := ev_shape_not_post ev (hshape ev hev)
    simp [hflag.1]
  have hdet : gst_auto_video_src_detect rOk feats s =
      (false, { s with kid := none }, (evs ++ [Ev.repostError e]) ++ [Ev.elemError]) := by
    unfold gst_auto_video_src_detect gst_auto_video_src_clear_kid
    simp only [hfb]
    rfl
  refine ⟨hfb, ?_, ?_, ?_⟩
  · rw [hdet]
    simp [List.filter_append, hnil, isRepostEv]
  · rw [hdet]
  · unfold gst_auto_video_src_change_state
    rw [hdet]
    rfl

/-- Witness for C3: the single failing candidate `wFail` makes the facade
repost its recorded error 7 and the transition fail. -/
theorem auto_video_src_first_error_surfaced_witness :
    gst_auto_video_src_find_best gst_auto_video_src_init.filter_caps [wFail] =
      (Sel.nosrc, [7],
        [Ev.capsCheck (bytes "badsrc") true, Ev.trial (bytes "badsrc") false] ++
          [Ev.repostError 7]) ∧
    ((gst_auto_video_src_detect true [wFail] gst_auto_video_src_init).2.2).filter isRepostEv =
      [Ev.repostError 7] ∧
    (gst_auto_video_src_detect true [wFail] gst_auto_video_src_init).1 = false ∧
    (gst_auto_video_src_change_state true [wFail] Transition.nullToReady
      gst_auto_video_src_init).1 = SCRet.failure :=
  auto_video_src_first_error_surfaced true [wFail] gst_auto_video_src_init 7 []
    [Ev.capsCheck (bytes "badsrc") true, Ev.trial (bytes "badsrc") false] (by decide)

/-- Claim C7: on a ranked list whose prefix is wholly rejected and whose
next candidate passes creation, the caps test and the trial activation,
selection stops exactly there: the passing candidate is returned, the
suffix after it contributes nothing (the outcome is the same for every
suffix), and none of the prefix's recorded errors is ever posted. -/
theorem auto_video_src_first_success_selected (fc? : Option Caps)
    (l1 l2 : List Feature) (c : Feature) (e1 : List ErrMsg) (v1 : List Ev)
    (h1 : probeLoop fc? l1 [] = (none, e1, v1))
    (hi : c.instOk = true) (hr : c.readyOk = true)
    (hc : ∀ fc, fc? = some fc → gst_caps_can_intersect fc c.caps = true) :
    selectPhase fc? (l1 ++ c :: l2) = (Sel.cand c, e1, v1 ++ stepOkEvents fc? c) ∧
    (∀ ev ∈ (selectPhase fc? (l1 ++ c :: l2)).2.2,
      isRepostEv ev = false ∧ isWarnEv ev = false) ∧
    (∀ l2' : List Feature, selectPhase fc? (l1 ++ c :: l2') = selectPhase fc? (l1 ++ c :: l2)) := by
  have hstep : ∀ l2' : List Feature,
      probeLoop fc? (c :: l2') e1 = (some c, e1, stepOkEvents fc? c) := by
    intro l2'
    cases fc? with
    | none =>
      rw [probeLoop_success_none c l2' e1 hi hr]
      rfl
    | some fc =>
      rw [probeLoop_success_some fc c l2' e1 hi (hc fc rfl) hr]
      rfl
  have hall : ∀ l2' : List Feature, probeLoop fc? (l1 ++ c :: l2') [] =
      (some c, e1, v1 ++ stepOkEvents fc? c) := by
    intro l2'
    rw [probeLoop_append fc? l1 (c :: l2') [] e1 v1 h1, hstep l2']
  have hsel : ∀ l2' : List Feature, selectPhase fc? (l1 ++ c :: l2') =
      (Sel.cand c, e1, v1 ++ stepOkEvents fc? c) := by
    intro l2'
    unfold selectPhase
    rw [hall l2']
  refine ⟨hsel l2, ?_, fun l2' => (hsel l2').trans (hsel l2).symm⟩
  rw [hsel l2]
  intro ev hev
  apply ev_shape_not_post
  rcases List.mem_append.mp hev with hv | hs
  · have hshape := probeLoop_ev_shape fc? l1 []
    rw [h1] at hshape
    exact hshape ev hv
  · cases fc? with
    | none =>
      simp [stepOkEvents] at hs
      exact Or.inr ⟨c.name, true, hs⟩
    | some fc =>
      simp [stepOkEvents] at hs
      rcases hs with hs | hs
      · exact Or.inl ⟨c.name, true, hs⟩
      · exact Or.inr ⟨c.name, true, hs⟩

/-- Witness for C7: after `wFail` is rejected, `wOk` succeeds and is
selected; the trailing `wMismatch` never matters. -/
theorem auto_video_src_first_success_selected_witness :
    selectPhase (some defaultRawCaps) ([wFail] ++ wOk :: [wMismatch]) =
      (Sel.cand wOk, [7],
        [Ev.capsCheck (bytes "badsrc") true, Ev.trial (bytes "badsrc") false] ++
          stepOkEvents (some defaultRawCaps) wOk) :=
  (auto_video_src_first_success_selected (some defaultRawCaps) [wFail] [wMismatch] wOk [7]
    [Ev.capsCheck (bytes "badsrc") true, Ev.trial (bytes "badsrc") false]
    (by decide) rfl rfl
    (fun fc hfc => by injection hfc with h2; rw [← h2]; decide)).1

/-- Counterexample for C1 as claimed: with the single candidate `wFail`
failing and leaving a recorded error, the NULL→READY transition fails
fatally and the facade is left with NO component bound - the placeholder
is not re-bound after the fatal failure. -/
theorem auto_video_src_placeholder_not_rebound_counterexample :
    (gst_auto_video_src_change_state true [wFail] Transition.nullToReady
      gst_auto_video_src_init).1 = SCRet.failure ∧
    (gst_auto_video_src_change_state true [wFail] Transition.nullToReady
      gst_auto_video_src_init).2.1.kid = none := by
  decide

/-- Claim C1 (amended): the endpoint target is set, and the placeholder
bound, after construction and after every deactivation; but a fatal
activation failure does not re-bind the placeholder: when `find_best`
returns NULL the kid is left cleared with the endpoint target merely
unchanged from before the attempt, and when re-targeting fails the chosen
candidate stays bound with the endpoint target unset. -/
theorem auto_video_src_endpoint_amended :
    (gst_auto_video_src_init.kid = some Elem.tempsrc ∧
     gst_auto_video_src_init.target = some Elem.tempsrc) ∧
    (∀ (rOk : Bool) (feats : List Feature) (s : AVSState),
      (gst_auto_video_src_change_state rOk feats Transition.readyToNull s).2.1.kid =
        some Elem.tempsrc ∧
      (gst_auto_video_src_change_state rOk feats Transition.readyToNull s).2.1.target =
        some Elem.tempsrc) ∧
    (∀ (rOk : Bool) (feats : List Feature) (s : AVSState),
      (gst_auto_video_src_find_best s.filter_caps feats).1 = Sel.nosrc →
      ((gst_auto_video_src_detect rOk feats s).1 = false ∧
       (gst_auto_video_src_detect rOk feats s).2.1.kid = none ∧
       (gst_auto_video_src_detect rOk feats s).2.1.target = s.target)) ∧
    (∀ (feats : List Feature) (s : AVSState) (f : Feature),
      (gst_auto_video_src_find_best s.filter_caps feats).1 = Sel.cand f →
      ((gst_auto_video_src_detect false feats s).1 = false ∧
       (gst_auto_video_src_detect false feats s).2.1.kid = some (Elem.cand f) ∧
       (gst_auto_video_src_detect false feats s).2.1.target = none)) := by
  refine ⟨⟨rfl, rfl⟩, fun rOk feats s => ⟨rfl, rfl⟩, ?_, ?_⟩
  · intro rOk feats s h
    rcases hq : gst_auto_video_src_find_best s.filter_caps feats with ⟨sel, errs, evs⟩
    rw [hq] at h
    simp only at h
    subst h
    have hd : gst_auto_video_src_detect rOk feats s =
        (false, { s with kid := none }, evs ++ [Ev.elemError]) := by
      unfold gst_auto_video_src_detect gst_auto_video_src_clear_kid
      simp only [hq]
      rfl
    rw [hd]
    exact ⟨rfl, rfl, rfl⟩
  · intro feats s f h
    rcases hq : gst_auto_video_src_find_best s.filter_caps feats with ⟨sel, errs, evs⟩
    rw [hq] at h
    simp only at h
    subst h
    have hd : gst_auto_video_src_detect false feats s =
        (false, { s with kid := some (Elem.cand f), target := none },
          evs ++ [Ev.elemError]) := by
      unfold gst_auto_video_src_detect gst_auto_video_src_clear_kid
      simp only [hq]
      rfl
    rw [hd]
    exact ⟨rfl, rfl, rfl⟩

/-- Witness for C1 (amended), third part: the fatal failure on `wFail`
leaves no kid bound and the endpoint target as it was at construction. -/
theorem auto_video_src_endpoint_amended_witness :
    (gst_auto_video_src_detect true [wFail] gst_auto_video_src_init).1 = false ∧
    (gst_auto_video_src_detect true [wFail] gst_auto_video_src_init).2.1.kid = none ∧
    (gst_auto_video_src_detect true [wFail] gst_auto_video_src_init).2.1.target =
      gst_auto_video_src_init.target :=
  auto_video_src_endpoint_amended.2.2.1 true [wFail] gst_auto_video_src_init (by decide)
